import Mathlib

/-!
Verification development for the Storacha bridge backend (`index.js`):
the CAR packaging pipeline (`bytesToCar`, `carCid`) and the
`/storacha/upload` handler are embedded as executable Lean definitions,
and the properties of the specification are settled against them.

Third-party building blocks that the source calls but does not contain
(the `multiformats` sha2-256 hasher and CID renderer, the `ipfs-car`
file-encoder and CAR encoder, the Node base64 decoder) are modelled
faithfully from their documented byte-level formats and from the spec.
-/

/-! ## Bytes and 32-bit words -/

/-- Truncation to a 32-bit word, written with an explicit modulus. -/
def w32 (n : Nat) : Nat := n % 4294967296

/-- Truncation to a byte. -/
def w8 (n : Nat) : Nat := n % 256

/-- Right rotation of a 32-bit word by `n` places. -/
def rotr (n x : Nat) : Nat := w32 ((x >>> n) ||| (x <<< (32 - n)))

/-! ## SHA-256 (the `multiformats/hashes/sha2` digest used by the source) -/

/-- The eight 32-bit working variables of the SHA-256 compression function. -/
structure H8 where
  a : Nat
  b : Nat
  c : Nat
  d : Nat
  e : Nat
  f : Nat
  g : Nat
  h : Nat
  deriving DecidableEq

/-- SHA-256 initial hash value. -/
def initH : H8 :=
  ⟨1779033703, 3144134277, 1013904242, 2773480762,
   1359893119, 2600822924, 528734635, 1541459225⟩

/-- SHA-256 round constants. -/
def K256 : List Nat :=
  [1116352408, 1899447441, 3049323471, 3921009573, 961987163, 1508970993,
   2453635748, 2870763221, 3624381080, 310598401, 607225278, 1426881987,
   1925078388, 2162078206, 2614888103, 3248222580, 3835390401, 4022224774,
   264347078, 604807628, 770255983, 1249150122, 1555081692, 1996064986,
   2554220882, 2821834349, 2952996808, 3210313671, 3336571891, 3584528711,
   113926993, 338241895, 666307205, 773529912, 1294757372, 1396182291,
   1695183700, 1986661051, 2177026350, 2456956037, 2730485921, 2820302411,
   3259730800, 3345764771, 3516065817, 3600352804, 4094571909, 275423344,
   430227734, 506948616, 659060556, 883997877, 958139571, 1322822218,
   1537002063, 1747873779, 1955562222, 2024104815, 2227730452, 2361852424,
   2428436474, 2756734187, 3204031479, 3329325298]

/-- SHA-256 big sigma 0. -/
def bsig0 (x : Nat) : Nat := (rotr 2 x) ^^^ (rotr 13 x) ^^^ (rotr 22 x)

/-- SHA-256 big sigma 1. -/
def bsig1 (x : Nat) : Nat := (rotr 6 x) ^^^ (rotr 11 x) ^^^ (rotr 25 x)

/-- SHA-256 small sigma 0. -/
def ssig0 (x : Nat) : Nat := (rotr 7 x) ^^^ (rotr 18 x) ^^^ (x >>> 3)

/-- SHA-256 small sigma 1. -/
def ssig1 (x : Nat) : Nat := (rotr 17 x) ^^^ (rotr 19 x) ^^^ (x >>> 10)

/-- SHA-256 choice function. -/
def chf (x y z : Nat) : Nat := (x &&& y) ^^^ ((x ^^^ 4294967295) &&& z)

/-- SHA-256 majority function. -/
def majf (x y z : Nat) : Nat := (x &&& y) ^^^ (x &&& z) ^^^ (y &&& z)

/-- One SHA-256 round with schedule word `w` and constant `k`. -/
def round1 (st : H8) (w k : Nat) : H8 :=
  let t1 := w32 (st.h + bsig1 st.e + chf st.e st.f st.g + k + w)
  let t2 := w32 (bsig0 st.a + majf st.a st.b st.c)
  ⟨w32 (t1 + t2), st.a, st.b, st.c, w32 (st.d + t1), st.e, st.f, st.g⟩

/-- Big-endian 32-bit words out of a byte list (complete 4-byte groups). -/
def bytesToWordsBE : List Nat → List Nat
  | b0 :: b1 :: b2 :: b3 :: rest =>
      (b0 * 16777216 + b1 * 65536 + b2 * 256 + b3) :: bytesToWordsBE rest
  | _ => []

/-- The next message-schedule word from the words produced so far. -/
def newW (w : List Nat) : Nat :=
  let n := w.length
  w32 (ssig1 (w.getD (n - 2) 0) + w.getD (n - 7) 0 +
       ssig0 (w.getD (n - 15) 0) + w.getD (n - 16) 0)

/-- Extend the 16-word schedule by `k` further words. -/
def extendSched : Nat → List Nat → List Nat
  | 0, w => w
  | k + 1, w => extendSched k (w ++ [newW w])

/-- SHA-256 compression of one 64-byte block into the chaining value. -/
def compressBlock (hs : H8) (block : List Nat) : H8 :=
  let ws := extendSched 48 (bytesToWordsBE block)
  let st := (ws.zip K256).foldl (fun s p => round1 s p.1 p.2) hs
  ⟨w32 (hs.a + st.a), w32 (hs.b + st.b), w32 (hs.c + st.c), w32 (hs.d + st.d),
   w32 (hs.e + st.e), w32 (hs.f + st.f), w32 (hs.g + st.g), w32 (hs.h + st.h)⟩

/-- Split a byte list into groups of `n`, threading the current group. -/
def groupCount (n : Nat) : Nat → List Nat → List Nat → List (List Nat)
  | _, [], cur => if cur.isEmpty then [] else [cur]
  | k, x :: xs, cur =>
      if k + 1 < n then groupCount n (k + 1) xs (cur ++ [x])
      else (cur ++ [x]) :: groupCount n 0 xs []

/-- Blocks of 64 bytes of a byte list. -/
def chunks64 (l : List Nat) : List (List Nat) := groupCount 64 0 l []

/-- The 8-byte big-endian encoding of the bit length. -/
def lenBytes64 (n : Nat) : List Nat :=
  [w8 (n >>> 56), w8 (n >>> 48), w8 (n >>> 40), w8 (n >>> 32),
   w8 (n >>> 24), w8 (n >>> 16), w8 (n >>> 8), w8 n]

/-- SHA-256 padding: 0x80, zeros to 56 mod 64, then the bit length. -/
def padMessage (m : List Nat) : List Nat :=
  m ++ 128 :: List.replicate ((119 - m.length % 64) % 64) 0 ++ lenBytes64 (8 * m.length)

/-- Big-endian bytes of a 32-bit word. -/
def wordBytes (w : Nat) : List Nat :=
  [w8 (w >>> 24), w8 (w >>> 16), w8 (w >>> 8), w8 w]

/-- The 32 digest bytes of a final chaining value. -/
def digestBytes (hs : H8) : List Nat :=
  wordBytes hs.a ++ wordBytes hs.b ++ wordBytes hs.c ++ wordBytes hs.d ++
  wordBytes hs.e ++ wordBytes hs.f ++ wordBytes hs.g ++ wordBytes hs.h

/-- SHA-256 of a byte list, as 32 bytes. -/
def sha256 (m : List Nat) : List Nat :=
  digestBytes ((chunks64 (padMessage m)).foldl compressBlock initH)

theorem sha256_length (m : List Nat) : (sha256 m).length = 32 := by
  simp [sha256, digestBytes, wordBytes]

/-! ## Varint, base32 multibase, CIDs (the `multiformats` rendering) -/

/-- Unsigned LEB128 with explicit fuel (the fuel `n` always suffices). -/
def varintF : Nat → Nat → List Nat
  | 0, n => [n]
  | fuel + 1, n => if n < 128 then [n] else (n % 128 + 128) :: varintF fuel (n / 128)

/-- Unsigned LEB128 varint of a natural number. -/
def varint (n : Nat) : List Nat := varintF n n

/-- The eight bits of a byte, most significant first. -/
def bitsOf (b : Nat) : List Nat :=
  [b >>> 7 &&& 1, b >>> 6 &&& 1, b >>> 5 &&& 1, b >>> 4 &&& 1,
   b >>> 3 &&& 1, b >>> 2 &&& 1, b >>> 1 &&& 1, b &&& 1]

/-- All bits of a byte list, most significant first within each byte. -/
def bitsJoin : List Nat → List Nat
  | [] => []
  | b :: t => bitsOf b ++ bitsJoin t

/-- Groups of five bits; a final shorter group is kept as is. -/
def chunks5 : List Nat → List (List Nat)
  | [] => []
  | b0 :: b1 :: b2 :: b3 :: b4 :: rest => [b0, b1, b2, b3, b4] :: chunks5 rest
  | l => [l]

/-- Value of a five-bit group, a short final group padded with zero bits. -/
def groupVal (g : List Nat) : Nat :=
  (g ++ List.replicate (5 - g.length) 0).foldl (fun a b => 2 * a + b) 0

/-- RFC 4648 lowercase base32 alphabet. -/
def b32Alphabet : List Char := "abcdefghijklmnopqrstuvwxyz234567".toList

/-- Unpadded lowercase base32 characters of a byte list. -/
def base32Chars (bytes : List Nat) : List Char :=
  (chunks5 (bitsJoin bytes)).map (fun g => b32Alphabet.getD (groupVal g) 'a')

/-- Multibase base32 rendering: the prefix character `b` then the digits. -/
def multibase32 (bytes : List Nat) : String := String.mk ('b' :: base32Chars bytes)

/-- A version-1 content identifier: a multicodec content-type code and a
sha2-256 digest. -/
structure CidV1 where
  codec : Nat
  digest : List Nat
  deriving DecidableEq

/-- Binary form of a CIDv1: version 1, codec varint, then the sha2-256
multihash (code 0x12, length 0x20, digest). -/
def CidV1.bytes (c : CidV1) : List Nat :=
  1 :: (varint c.codec ++ 0x12 :: 0x20 :: c.digest)

/-- Text token of a CIDv1 (what `CID.toString()` returns in the source). -/
def cidText (c : CidV1) : String := multibase32 c.bytes

/-! ## Chunker / DAG builder (the `ipfs-car` createFileEncoderStream) -/

/-- Multicodec code used for the DAG-file blocks. -/
def FILE_DAG_CODE : Nat := 0x70

/-- Multicodec code of the CAR container, `CAR_CODE` in the source. -/
def CAR_CODE : Nat := 0x0202

/-- A content block: its identifier and its payload bytes. -/
structure Block where
  cid : CidV1
  bytes : List Nat
  deriving DecidableEq

/-- Chunk size of the file encoder (256 KiB). -/
def CHUNK_SIZE : Nat := 262144

/-- Fixed-size chunks of the payload; the empty payload has no chunks. -/
def chunksPayload (l : List Nat) : List (List Nat) := groupCount CHUNK_SIZE 0 l []

/-- Modelled from the spec: a leaf block of the file DAG carries a payload
chunk and is identified by the DAG-file codec over the sha2-256 of its
bytes (`createFileEncoderStream` of `ipfs-car` is not part of src). -/
def leafBlock (c : List Nat) : Block := ⟨⟨FILE_DAG_CODE, sha256 c⟩, c⟩

/-- Modelled from the spec: the byte encoding of a multi-chunk root node is
the concatenation of the identifier bytes of its ordered leaf links. -/
def linkNodeBytes (leaves : List Block) : List Nat :=
  (leaves.map (fun b => CidV1.bytes b.cid)).flatten

/-- Modelled from the spec: the ordered block sequence of the file DAG,
root emitted last; the empty payload still yields one minimal block. -/
def buildBlocks (p : List Nat) : List Block :=
  match chunksPayload p with
  | [] => [leafBlock []]
  | [c] => [leafBlock c]
  | cs => (cs.map leafBlock) ++ [leafBlock (linkNodeBytes (cs.map leafBlock))]

/-- Fallback block (never reached: the block list is never empty). -/
def dummyBlock : Block := leafBlock []

/-- Mirrors `blocks.at(-1).cid` of the source: the root is the last block emitted. -/
def rootOf (p : List Nat) : CidV1 := ((buildBlocks p).getLastD dummyBlock).cid

/-! ## CAR encoding (the `CAREncoderStream`) -/

/-- ASCII bytes of a string (all strings used are ASCII). -/
def asciiBytes (s : String) : List Nat := s.toList.map Char.toNat

/-- CBOR head of an array of `n` elements (small counts). -/
def cborArrayHead (n : Nat) : List Nat :=
  if n < 24 then [0x80 + n] else [0x98, n % 256]

/-- DAG-CBOR encoding of a root link: tag 42 over the identity-prefixed
CID bytes. -/
def taggedCid (c : CidV1) : List Nat :=
  let cb := 0 :: c.bytes
  0xd8 :: 0x2a :: ((if cb.length < 24 then [0x40 + cb.length] else [0x58, cb.length % 256]) ++ cb)

/-- DAG-CBOR body of the CAR header: a map with the declared roots and the
format version 1. -/
def dagCborHeader (roots : List CidV1) : List Nat :=
  0xa2 :: ((0x65 :: asciiBytes "roots") ++ cborArrayHead roots.length ++
    (roots.map taggedCid).flatten ++ (0x67 :: asciiBytes "version") ++ [1])

/-- Length-prefixed CAR header declaring the given roots. -/
def carHeaderOf (roots : List CidV1) : List Nat :=
  varint (dagCborHeader roots).length ++ dagCborHeader roots

/-- One CAR block section: varint of the total length, the identifier
bytes, then the block bytes. -/
def carBlockSection (b : Block) : List Nat :=
  varint (b.cid.bytes.length + b.bytes.length) ++ b.cid.bytes ++ b.bytes

/-- The drain loop of the block stream in the source: `pull` shifts the next
block off the front of the array and appends its encoded section to the
chunk list; the loop returns the collected chunks together with the final
value of the block array. -/
def encodeLoop : List Block → List (List Nat) → List (List Nat) × List Block
  | [], acc => (acc, [])
  | b :: rest, acc => encodeLoop rest (acc ++ [carBlockSection b])

/-- Mirrors `bytesToCar` of the source: build the DAG blocks, take the identifier
of the last block as root, then re-encode the blocks into a CAR whose header
declares that single root. Returns the root identifier token and the
archive bytes. -/
def bytesToCar (p : List Nat) : String × List Nat :=
  let root := rootOf p
  (cidText root, ((encodeLoop (buildBlocks p) [carHeaderOf [root]]).1).flatten)

/-- Mirrors `carCid` of the source: the archive identifier, multicodec 0x0202 over
the sha2-256 of the full archive bytes. -/
def carCid (carBytes : List Nat) : String := cidText ⟨CAR_CODE, sha256 carBytes⟩

/-! ## Base64 decoding, mirroring the forgiving base64 mode of Buffer.from in Node -/

/-- Modelled from the Node runtime (not part of src): the value of one
base64 alphabet character, `none` for every character outside the
alphabet (such characters, including `=`, contribute no bits). -/
def b64Val (c : Char) : Option Nat :=
  let n := c.toNat
  if 65 ≤ n ∧ n ≤ 90 then some (n - 65)
  else if 97 ≤ n ∧ n ≤ 122 then some (n - 71)
  else if 48 ≤ n ∧ n ≤ 57 then some (n + 4)
  else if n = 43 then some 62
  else if n = 47 then some 63
  else none

/-- Bytes of a list of six-bit values: each complete group of four values
gives three bytes, a trailing pair or triple gives one or two bytes, and a
trailing single value gives nothing. -/
def b64Groups : List Nat → List Nat
  | a :: b :: c :: d :: rest =>
      (a * 4 + b / 16) :: ((b % 16) * 16 + c / 4) :: ((c % 4) * 64 + d) :: b64Groups rest
  | [a, b] => [a * 4 + b / 16]
  | [a, b, c] => [a * 4 + b / 16, (b % 16) * 16 + c / 4]
  | _ => []

/-- Mirrors the base64-mode Buffer.from call of the source: forgiving
decoding that drops non-alphabet characters. -/
def base64Decode (s : String) : List Nat := b64Groups (s.toList.filterMap b64Val)

/-! ## The upload handler posted at the storacha upload route -/

/-- JavaScript truthiness of an optional string field: absent values and
the empty string are falsy. -/
def truthy : Option String → Bool
  | none => false
  | some s => if s = "" then false else true

/-- The environment variables the handler reads: the three pieces of
authentication material, the gateway base and the bridge endpoint. -/
structure Config where
  xAuthSecret : Option String
  auth : Option String
  spaceDid : Option String
  gatewayBase : String
  bridgeUrl : String
  deriving DecidableEq

/-- The `out.ok` payload of a bridge task result: an optional signed PUT
URL and optional transfer headers. -/
structure OkPayload where
  url : Option String
  headers : Option (List (String × String))
  deriving DecidableEq

/-- One element of the `results` array of the bridge response; `raw` stands for
whatever other fields the JSON value carries. -/
structure TaskResult where
  outOk : Option OkPayload
  raw : Nat
  deriving DecidableEq

/-- A bridge response body (`storeResp.data`); `results?` is the optional
`results` array and `raw` stands for the remaining fields, so equality of
`BridgeBody` values models byte-identical JSON bodies. -/
structure BridgeBody where
  results? : Option (List TaskResult)
  raw : Nat
  deriving DecidableEq

deriving instance DecidableEq for Except

/-- Remote behavior of one upload attempt: what the bridge answers to
store/add, whether the signed-URL PUT succeeds, and what the bridge
answers to upload/add. An `Except.error` is an axios transport failure
(thrown), carrying opaque diagnostic data. -/
structure Env where
  storeAdd : Except Nat BridgeBody
  putResult : Except Nat Unit
  uploadAdd : Except Nat BridgeBody
  deriving DecidableEq

/-- The task payloads posted to the bridge. -/
inductive Tasks where
  | storeAdd (space : Option String) (link : String) (size : Nat)
  | uploadAdd (space : Option String) (root : String) (shards : List String)
  deriving DecidableEq

/-- An outbound network call of the handler, in issue order. -/
inductive Event where
  | bridgePost (url : String) (tasks : Tasks)
  | blobPut (url : String) (headers : List (String × String)) (body : List Nat)
  deriving DecidableEq

/-- The error value reaching the catch block: the configuration error
thrown by `bridgeHeaders`, or an axios transport error with its response
data. -/
inductive Err where
  | configMissing
  | transport (data : Nat)
  deriving DecidableEq

/-- The HTTP response of the handler, one constructor per response site of
the source. -/
inductive Resp where
  | missingFields
  | noPutUrl (bridge : BridgeBody)
  | success (rootCid gatewayUrl : String)
  | caught (e : Err)
  deriving DecidableEq

/-- The HTTP status attached to each response shape in the source. -/
def Resp.status : Resp → Nat
  | .missingFields => 400
  | .noPutUrl _ => 502
  | .success _ _ => 200
  | .caught _ => 500

/-- The `ok` field of each response body. -/
def Resp.okField : Resp → Bool
  | .success _ _ => true
  | _ => false

/-- Whether all three pieces of authentication material are truthy. -/
def bridgeConfigured (cfg : Config) : Bool :=
  truthy cfg.xAuthSecret && truthy cfg.auth && truthy cfg.spaceDid

/-- Mirrors `bridgeHeaders` of the source: throws when any of the three pieces of
authentication material is falsy, otherwise returns the bridge headers. -/
def bridgeHeaders (cfg : Config) : Except Err (List (String × String)) :=
  if bridgeConfigured cfg then
    .ok [("Content-Type", "application/json"),
         ("X-Auth-Secret", cfg.xAuthSecret.getD ""),
         ("Authorization", cfg.auth.getD "")]
  else .error .configMissing

/-- Mirrors the optional-chained extraction of the signed PUT URL from the
first result of the store response in the source. -/
def putUrlOf (b : BridgeBody) : Option String :=
  ((b.results?.getD []).get? 0).bind (fun t => t.outOk.bind (fun o => o.url))

/-- Mirrors the optional-chained extraction of the transfer headers, with an
empty default, in the source. -/
def putHeadersOf (b : BridgeBody) : List (String × String) :=
  (((b.results?.getD []).get? 0).bind (fun t => t.outOk.bind (fun o => o.headers))).getD []

/-- The `/storacha/upload` handler: field validation, CAR construction,
then the three-phase protocol, returning the HTTP response together with
the ordered trace of outbound network calls. The `bridgeHeaders` argument
of the first bridge post is evaluated before any request is sent, so a
configuration error is caught with an empty trace. -/
def handler (cfg : Config) (env : Env) (fileName contentBase64 : Option String) :
    Resp × List Event :=
  if truthy fileName && truthy contentBase64 then
    let bytes := base64Decode (contentBase64.getD "")
    let rc := bytesToCar bytes
    let carBytes := rc.2
    let size := carBytes.length
    let shardCid := carCid carBytes
    match bridgeHeaders cfg with
    | .error e => (.caught e, [])
    | .ok _ =>
      let ev1 := Event.bridgePost cfg.bridgeUrl (Tasks.storeAdd cfg.spaceDid shardCid size)
      match env.storeAdd with
      | .error d => (.caught (.transport d), [ev1])
      | .ok body =>
        match putUrlOf body with
        | none => (.noPutUrl body, [ev1])
        | some u =>
          let ev2 := Event.blobPut u (putHeadersOf body) carBytes
          match env.putResult with
          | .error d => (.caught (.transport d), [ev1, ev2])
          | .ok _ =>
            let ev3 := Event.bridgePost cfg.bridgeUrl (Tasks.uploadAdd cfg.spaceDid rc.1 [shardCid])
            match env.uploadAdd with
            | .error d => (.caught (.transport d), [ev1, ev2, ev3])
            | .ok _ => (.success rc.1 (cfg.gatewayBase ++ rc.1), [ev1, ev2, ev3])
  else (.missingFields, [])

/-- Whether an event is the signed-URL byte transfer. -/
def Event.isPut : Event → Bool
  | .blobPut _ _ _ => true
  | _ => false

/-- Whether an event is the store/add authorization post. -/
def Event.isAuthPost : Event → Bool
  | .bridgePost _ (Tasks.storeAdd _ _ _) => true
  | _ => false

/-- Whether an event is the upload/add finalization post. -/
def Event.isFinalizePost : Event → Bool
  | .bridgePost _ (Tasks.uploadAdd _ _ _) => true
  | _ => false

/-- Size/body consistency of one event against the archive bytes: every
store/add post carries the length of the archive and every PUT carries the
archive bytes themselves. -/
def eventConsistent (carB : List Nat) : Event → Bool
  | .bridgePost _ (Tasks.storeAdd _ _ sz) => sz == carB.length
  | .blobPut _ _ body => body == carB
  | _ => true

/-! ## Shared lemmas about the handler -/

theorem bridgeHeaders_of_configured (cfg : Config) (h : bridgeConfigured cfg = true) :
    bridgeHeaders cfg =
      .ok [("Content-Type", "application/json"),
           ("X-Auth-Secret", cfg.xAuthSecret.getD ""),
           ("Authorization", cfg.auth.getD "")] := by
  simp [bridgeHeaders, h]

theorem bridgeHeaders_of_unconfigured (cfg : Config) (h : bridgeConfigured cfg = false) :
    bridgeHeaders cfg = .error .configMissing := by
  simp [bridgeHeaders, h]

/-! ## C2: the authorized size equals the transferred byte length -/

/-- Claim C2: in every execution of the upload handler, every store/add
authorization event carries exactly the byte length of the CAR archive of
the decoded payload, and every signed-URL PUT event carries exactly those
archive bytes as its body. -/
theorem C2_store_size_equals_put_body (cfg : Config) (env : Env) (fn cb : Option String) :
    ((handler cfg env fn cb).2).all
      (eventConsistent (bytesToCar (base64Decode (cb.getD ""))).2) = true := by
  rcases env with ⟨sa, pr, ua⟩
  by_cases hv : (truthy fn && truthy cb) = true
  · by_cases hcfg : bridgeConfigured cfg = true
    · rcases sa with d | body
      · simp [handler, hv, bridgeHeaders_of_configured _ hcfg, eventConsistent]
      · cases hu : putUrlOf body with
        | none =>
            simp [handler, hv, bridgeHeaders_of_configured _ hcfg, hu, eventConsistent]
        | some u =>
            rcases pr with d | u'
            · simp [handler, hv, bridgeHeaders_of_configured _ hcfg, hu, eventConsistent]
            · rcases ua with d | ubody <;>
                simp [handler, hv, bridgeHeaders_of_configured _ hcfg, hu, eventConsistent]
    · simp [handler, hv, bridgeHeaders_of_unconfigured _ (Bool.of_not_eq_true hcfg)]
  · simp [handler, hv]

/-! ## Concrete fixtures used by the witnesses -/

/-- A fully configured environment-variable set. -/
def cfgW : Config :=
  ⟨some "sec", some "mtoken", some "did:key:zSpace",
   "https://w3s.link/ipfs/", "https://up.storacha.network/bridge"⟩

/-- A configuration whose authorization header is absent. -/
def cfgNoAuthW : Config :=
  ⟨some "sec", none, some "did:key:zSpace",
   "https://w3s.link/ipfs/", "https://up.storacha.network/bridge"⟩

/-- A bridge body whose first result carries a signed PUT URL. -/
def okBodyW : BridgeBody :=
  ⟨some [⟨some ⟨some "https://blob.example/put", some [("content-length", "96")]⟩, 7⟩], 3⟩

/-- A bridge body whose first result has an `ok` payload without a URL. -/
def noUrlBodyW : BridgeBody := ⟨some [⟨some ⟨none, none⟩, 7⟩], 3⟩

/-- Remote behavior where every phase succeeds. -/
def envOkW : Env := ⟨.ok okBodyW, .ok (), .ok ⟨none, 9⟩⟩

/-- Remote behavior where authorization answers without a PUT URL. -/
def envNoUrlW : Env := ⟨.ok noUrlBodyW, .ok (), .ok ⟨none, 9⟩⟩

/-! ## C3: a missing signed URL aborts with the bridge body attached -/

/-- Claim C3: when the store/add response of the bridge carries no signed PUT
URL, the handler answers with the failure response holding that bridge
body verbatim, the only outbound call is the single store/add post, and
no transfer PUT and no upload/add post is issued. -/
theorem C3_no_put_url_aborts (cfg : Config) (env : Env) (fn cb : Option String)
    (body : BridgeBody)
    (hf : truthy fn = true) (hc : truthy cb = true)
    (hcfg : bridgeConfigured cfg = true)
    (hs : env.storeAdd = .ok body)
    (hu : putUrlOf body = none) :
    handler cfg env fn cb =
      (.noPutUrl body,
       [Event.bridgePost cfg.bridgeUrl
          (Tasks.storeAdd cfg.spaceDid
            (carCid (bytesToCar (base64Decode (cb.getD ""))).2)
            (bytesToCar (base64Decode (cb.getD ""))).2.length)]) ∧
    ((handler cfg env fn cb).2).countP Event.isPut = 0 ∧
    ((handler cfg env fn cb).2).countP Event.isFinalizePost = 0 := by
  have hmain : handler cfg env fn cb =
      (.noPutUrl body,
       [Event.bridgePost cfg.bridgeUrl
          (Tasks.storeAdd cfg.spaceDid
            (carCid (bytesToCar (base64Decode (cb.getD ""))).2)
            (bytesToCar (base64Decode (cb.getD ""))).2.length)]) := by
    simp [handler, hf, hc, bridgeHeaders_of_configured _ hcfg, hs, hu]
  refine ⟨hmain, ?_, ?_⟩ <;> rw [hmain] <;>
    simp [Event.isPut, Event.isFinalizePost]

theorem C3_witness :
    handler cfgW envNoUrlW (some "cert.pdf") (some "aGk=") =
      (.noPutUrl noUrlBodyW,
       [Event.bridgePost cfgW.bridgeUrl
          (Tasks.storeAdd cfgW.spaceDid
            (carCid (bytesToCar (base64Decode ((some "aGk=").getD ""))).2)
            (bytesToCar (base64Decode ((some "aGk=").getD ""))).2.length)]) ∧
    ((handler cfgW envNoUrlW (some "cert.pdf") (some "aGk=")).2).countP Event.isPut = 0 ∧
    ((handler cfgW envNoUrlW (some "cert.pdf") (some "aGk=")).2).countP Event.isFinalizePost = 0 :=
  C3_no_put_url_aborts cfgW envNoUrlW (some "cert.pdf") (some "aGk=") noUrlBodyW
    (by decide) (by decide) (by decide) rfl (by decide)

/-! ## C4: no phase is skipped or reordered -/

/-- The archive bytes computed for the contentBase64 field of a request. -/
def carBytesOf (cb : Option String) : List Nat :=
  (bytesToCar (base64Decode (cb.getD ""))).2

/-- The store/add authorization event the handler issues. -/
def authEvent (cfg : Config) (cb : Option String) : Event :=
  .bridgePost cfg.bridgeUrl
    (.storeAdd cfg.spaceDid (carCid (carBytesOf cb)) (carBytesOf cb).length)

/-- The signed-URL transfer event the handler issues. -/
def putEvent (u : String) (body : BridgeBody) (cb : Option String) : Event :=
  .blobPut u (putHeadersOf body) (carBytesOf cb)

/-- The upload/add finalization event the handler issues. -/
def finalizeEvent (cfg : Config) (cb : Option String) : Event :=
  .bridgePost cfg.bridgeUrl
    (.uploadAdd cfg.spaceDid (bytesToCar (base64Decode (cb.getD ""))).1
      [carCid (carBytesOf cb)])

/-- Claim C4: every trace of the upload handler is a prefix of the
authorize–transfer–finalize sequence: the transfer PUT appears only after
a store/add post answered successfully with a signed URL, and the
upload/add post appears only after the PUT also completed successfully. -/
theorem C4_phase_ordering (cfg : Config) (env : Env) (fn cb : Option String) :
    (handler cfg env fn cb).2 = [] ∨
    (∃ a, (handler cfg env fn cb).2 = [a] ∧ a.isAuthPost = true) ∨
    (∃ a p2, (handler cfg env fn cb).2 = [a, p2] ∧
      a.isAuthPost = true ∧ p2.isPut = true ∧
      ∃ body, env.storeAdd = Except.ok body ∧ (putUrlOf body).isSome = true) ∨
    (∃ a p2 f3, (handler cfg env fn cb).2 = [a, p2, f3] ∧
      a.isAuthPost = true ∧ p2.isPut = true ∧ f3.isFinalizePost = true ∧
      (∃ body, env.storeAdd = Except.ok body ∧ (putUrlOf body).isSome = true) ∧
      env.putResult = Except.ok ()) := by
  rcases env with ⟨sa, pr, ua⟩
  by_cases hv : (truthy fn && truthy cb) = true
  · by_cases hcfg : bridgeConfigured cfg = true
    · rcases sa with d | body
      · refine Or.inr (Or.inl ⟨authEvent cfg cb, ?_, rfl⟩)
        simp [handler, hv, bridgeHeaders_of_configured _ hcfg, authEvent, carBytesOf]
      · cases hu : putUrlOf body with
        | none =>
            refine Or.inr (Or.inl ⟨authEvent cfg cb, ?_, rfl⟩)
            simp [handler, hv, bridgeHeaders_of_configured _ hcfg, hu, authEvent, carBytesOf]
        | some u =>
            rcases pr with d | u'
            · refine Or.inr (Or.inr (Or.inl ⟨authEvent cfg cb, putEvent u body cb, ?_,
                rfl, rfl, body, rfl, by simp [hu]⟩))
              simp [handler, hv, bridgeHeaders_of_configured _ hcfg, hu,
                authEvent, putEvent, carBytesOf]
            · cases u'
              rcases ua with d | ubody
              · refine Or.inr (Or.inr (Or.inr
                  ⟨authEvent cfg cb, putEvent u body cb, finalizeEvent cfg cb, ?_,
                    rfl, rfl, rfl, ⟨body, rfl, by simp [hu]⟩, rfl⟩))
                simp [handler, hv, bridgeHeaders_of_configured _ hcfg, hu,
                  authEvent, putEvent, finalizeEvent, carBytesOf]
              · refine Or.inr (Or.inr (Or.inr
                  ⟨authEvent cfg cb, putEvent u body cb, finalizeEvent cfg cb, ?_,
                    rfl, rfl, rfl, ⟨body, rfl, by simp [hu]⟩, rfl⟩))
                simp [handler, hv, bridgeHeaders_of_configured _ hcfg, hu,
                  authEvent, putEvent, finalizeEvent, carBytesOf]
    · refine Or.inl ?_
      simp [handler, hv, bridgeHeaders_of_unconfigured _ (Bool.of_not_eq_true hcfg)]
  · refine Or.inl ?_
    simp [handler, hv]

/-! ## C5: missing authentication material fails before any network call -/

/-- Claim C5: when the secret header value, the authorization header value
or the space identifier is absent from the environment, the handler fails
(no `ok` response) and its trace of outbound network calls is empty. -/
theorem C5_missing_config_fails_before_network (cfg : Config) (env : Env)
    (fn cb : Option String)
    (h : cfg.xAuthSecret = none ∨ cfg.auth = none ∨ cfg.spaceDid = none) :
    (handler cfg env fn cb).2 = [] ∧ ((handler cfg env fn cb).1).okField = false := by
  have hcfg : bridgeConfigured cfg = false := by
    rcases h with h | h | h <;> simp [bridgeConfigured, h, truthy]
  by_cases hv : (truthy fn && truthy cb) = true
  · simp [handler, hv, bridgeHeaders_of_unconfigured _ hcfg, Resp.okField]
  · simp [handler, hv, Resp.okField]

theorem C5_witness :
    (handler cfgNoAuthW envOkW (some "cert.pdf") (some "aGk=")).2 = [] ∧
    ((handler cfgNoAuthW envOkW (some "cert.pdf") (some "aGk=")).1).okField = false :=
  C5_missing_config_fails_before_network cfgNoAuthW envOkW (some "cert.pdf") (some "aGk=")
    (Or.inr (Or.inl rfl))

/-! ## C9: the file name does not influence the result -/

/-- Claim C9: two requests with the same `contentBase64` and any two
non-empty `fileName` values produce identical responses and identical
network traces; the file name takes part only in the presence check. -/
theorem C9_fileName_oblivious (cfg : Config) (env : Env) (fn1 fn2 : String)
    (cb : Option String) (h1 : ¬fn1 = "") (h2 : ¬fn2 = "") :
    handler cfg env (some fn1) cb = handler cfg env (some fn2) cb := by
  have t1 : truthy (some fn1) = true := by simp [truthy, h1]
  have t2 : truthy (some fn2) = true := by simp [truthy, h2]
  simp [handler, t1, t2]

theorem C9_witness :
    handler cfgW envOkW (some "a.pdf") (some "aGk=") =
    handler cfgW envOkW (some "b.pdf") (some "aGk=") :=
  C9_fileName_oblivious cfgW envOkW "a.pdf" "b.pdf" (some "aGk=") (by decide) (by decide)

/-! ## C10: request validation, and reachability of the empty payload -/

/-- Claim C10 counterexample: the final consequence of the claim fails — a zero-length
payload is reachable through the entry point, because the non-empty
(truthy) string `=` decodes to the empty byte sequence: the request passes
validation, is not rejected with 400, and drives a full upload of the
empty-payload archive. -/
theorem C10_counterexample :
    truthy (some "=") = true ∧
    base64Decode "=" = [] ∧
    (handler cfgW envOkW (some "a") (some "=")).1.status = 200 ∧
    ((handler cfgW envOkW (some "a") (some "=")).2).countP Event.isPut = 1 := by
  decide

/-- Claim C10 as amended: a request whose `fileName` or `contentBase64` is
absent or empty (falsy) is rejected with status 400 and the fixed error
body, with no archive construction observable and no network call; the
zero-length payload nevertheless remains reachable, since the non-empty
string `=` decodes to the empty byte sequence. -/
theorem C10_amended_validation (cfg : Config) (env : Env) (fn cb : Option String)
    (h : truthy fn = false ∨ truthy cb = false) :
    handler cfg env fn cb = (.missingFields, []) ∧
    Resp.status .missingFields = 400 ∧
    base64Decode "=" = [] ∧ truthy (some "=") = true := by
  have hv : (truthy fn && truthy cb) = false := by rcases h with h | h <;> simp [h]
  exact ⟨by simp [handler, hv], rfl, by decide, by decide⟩

theorem C10_witness :
    handler cfgW envOkW none (some "x") = (.missingFields, []) ∧
    Resp.status .missingFields = 400 ∧
    base64Decode "=" = [] ∧ truthy (some "=") = true :=
  C10_amended_validation cfgW envOkW none (some "x") (Or.inl rfl)

/-! ## C7: the empty payload still yields a well-formed archive -/

/-- Claim C7: the empty byte payload produces exactly one (minimal) block,
its archive is the header declaring that single root followed by the one
block section, and for every payload the block sequence of the chunker is
non-empty, so taking the last block as root is well-defined. -/
theorem C7_empty_payload_archive :
    (buildBlocks []).length = 1 ∧
    (bytesToCar []).2 = carHeaderOf [rootOf []] ++ carBlockSection (leafBlock []) ∧
    ∀ p : List Nat, 0 < (buildBlocks p).length := by
  refine ⟨rfl, ?_, ?_⟩
  · have h1 : buildBlocks [] = [leafBlock []] := rfl
    simp [bytesToCar, h1, encodeLoop]
  · intro p
    unfold buildBlocks
    rcases h : chunksPayload p with _ | ⟨c, _ | ⟨c2, cs⟩⟩ <;> simp

/-! ## C8: the encode loop drains the block array, keeping the order -/

/-- Claim C8 counterexample: the block sequence handed to the encoding
loop is not left unchanged — after encoding a one-block sequence, the
array the loop drained is empty rather than still holding the block. -/
theorem C8_counterexample :
    (encodeLoop [leafBlock [0]] [carHeaderOf [(leafBlock [0]).cid]]).2 ≠ [leafBlock [0]] := by
  intro h
  exact absurd (congrArg List.length h) (by decide)

/-- Claim C8 as amended: the drain loop consumes the input block array
destructively, leaving it empty, but it appends exactly one encoded
section per block, in the order the blocks were received, after the chunks
already collected — so the archive lists the blocks in order even though
the array is emptied. -/
theorem C8_amended_drain (blocks : List Block) (acc : List (List Nat)) :
    encodeLoop blocks acc = (acc ++ blocks.map carBlockSection, []) := by
  induction blocks generalizing acc with
  | nil => simp [encodeLoop]
  | cons b rest ih => simp [encodeLoop, ih]

/-! ## C1: the archive construction is deterministic -/

/-- One complete run of the pull-based block stream of the source: `pull`
enqueues the front block (whose encoded section is appended to the chunk
accumulator) until the array is exhausted, then closes with the collected
chunks. -/
inductive PullRun : List Block → List (List Nat) → List (List Nat) → Prop
  | close (acc : List (List Nat)) : PullRun [] acc acc
  | next (b : Block) (rest : List Block) (acc out : List (List Nat)) :
      PullRun rest (acc ++ [carBlockSection b]) out → PullRun (b :: rest) acc out

theorem pullRun_deterministic (bs : List Block) (acc o1 o2 : List (List Nat))
    (h1 : PullRun bs acc o1) (h2 : PullRun bs acc o2) : o1 = o2 := by
  induction h1 generalizing o2 with
  | close acc => cases h2 with | close => rfl
  | next b rest acc out h ih => cases h2 with | next _ _ _ _ h2t => exact ih _ h2t

theorem pullRun_encodeLoop (bs : List Block) (acc : List (List Nat)) :
    PullRun bs acc (encodeLoop bs acc).1 := by
  induction bs generalizing acc with
  | nil => exact .close acc
  | cons b rest ih => exact .next b rest acc _ (ih _)

/-- A complete archive construction for payload `p`: some run of the block
stream produced the chunks, and the result couples the root token computed
from the last emitted block with the concatenated chunks. -/
inductive CarBuild (p : List Nat) : String × List Nat → Prop
  | build (chunks : List (List Nat)) :
      PullRun (buildBlocks p) [carHeaderOf [rootOf p]] chunks →
      CarBuild p (cidText (rootOf p), chunks.flatten)

theorem carBuild_run (p : List Nat) : CarBuild p (bytesToCar p) :=
  .build _ (pullRun_encodeLoop _ _)

/-- Claim C1: the archive construction is a deterministic function of the
payload bytes — any two complete runs on the same payload produce the same
root identifier and archive bytes, and hence the same archive identifier. -/
theorem C1_deterministic (p : List Nat) (o1 o2 : String × List Nat)
    (h1 : CarBuild p o1) (h2 : CarBuild p o2) :
    o1 = o2 ∧ carCid o1.2 = carCid o2.2 := by
  rcases h1 with ⟨c1, r1⟩
  rcases h2 with ⟨c2, r2⟩
  have hc := pullRun_deterministic _ _ _ _ r1 r2
  subst hc
  exact ⟨rfl, rfl⟩

theorem C1_witness :
    bytesToCar [104, 105] = bytesToCar [104, 105] ∧
    carCid (bytesToCar [104, 105]).2 = carCid (bytesToCar [104, 105]).2 :=
  C1_deterministic [104, 105] (bytesToCar [104, 105]) (bytesToCar [104, 105])
    (carBuild_run [104, 105]) (carBuild_run [104, 105])

/-! ## C6: the root token and the archive token are never equal -/

theorem varint_file_code : varint FILE_DAG_CODE = [112] := by decide

theorem varint_car_code : varint CAR_CODE = [130, 4] := by decide

theorem getLastD_append_single {α : Type} (l : List α) (x d : α) :
    (l ++ [x]).getLastD d = x := by
  induction l with
  | nil => rfl
  | cons a t ih =>
      cases t with
      | nil => rfl
      | cons b t2 => simpa using ih

theorem rootOf_codec (p : List Nat) : (rootOf p).codec = FILE_DAG_CODE := by
  unfold rootOf buildBlocks
  rcases h : chunksPayload p with _ | ⟨c, _ | ⟨c2, cs⟩⟩
  · simp only [h]; rfl
  · simp only [h]; rfl
  · simp only [h]
    rw [getLastD_append_single]
    rfl

theorem base32_char1_file (rest : List Nat) :
    (base32Chars (1 :: 112 :: rest)).getD 1 'z' = 'f' := rfl

theorem base32_char1_car (rest : List Nat) :
    (base32Chars (1 :: 130 :: rest)).getD 1 'z' = 'g' := rfl

theorem cidText_codec_distinct (d1 d2 : List Nat) :
    (cidText ⟨FILE_DAG_CODE, d1⟩ == cidText ⟨CAR_CODE, d2⟩) = false := by
  rw [beq_eq_false_iff_ne]
  intro h
  have hb1 : CidV1.bytes ⟨FILE_DAG_CODE, d1⟩ = 1 :: 112 :: (18 :: 32 :: d1) := by
    simp [CidV1.bytes, varint_file_code]
  have hb2 : CidV1.bytes ⟨CAR_CODE, d2⟩ = 1 :: 130 :: (4 :: 18 :: 32 :: d2) := by
    simp [CidV1.bytes, varint_car_code]
  unfold cidText multibase32 at h
  rw [hb1, hb2] at h
  have hdata := congrArg String.data h
  simp only [List.cons.injEq] at hdata
  have hchars := hdata.2
  have h1 := base32_char1_file (18 :: 32 :: d1)
  rw [hchars, base32_char1_car (4 :: 18 :: 32 :: d2)] at h1
  exact absurd h1 (by decide)

/-- Claim C6: for every payload, the root identifier token and the archive
identifier token of the same upload are distinct, because the root token
is rendered with the DAG-file codec and the archive token with the CAR
container codec 0x0202. -/
theorem C6_tokens_never_equal (p : List Nat) :
    ((bytesToCar p).1 == carCid (bytesToCar p).2) = false := by
  have h1 : (bytesToCar p).1 = cidText (rootOf p) := rfl
  have hcodec := rootOf_codec p
  rcases hE : rootOf p with ⟨cod, dig⟩
  rw [hE] at hcodec
  simp only at hcodec
  subst hcodec
  rw [h1, hE]
  exact cidText_codec_distinct dig (sha256 (bytesToCar p).2)
